import Mathlib

/-!
Shallow embedding of the style-deduplication and attribute-serialization
core of an SVG document-construction library (Go sources text.go and
shapes.go), together with proofs about it.

Go maps of type map[string]string are modelled as association lists where
an insert prepends the new binding and lookup returns the most recent one;
this matches the observable lookup/overwrite semantics of Go map writes.
Go int counters that are only ever incremented from zero are modelled as Nat.
-/

namespace Svg

/-- Lookup in the association-list model of a Go map[string]string:
returns the most recently inserted value bound to the key, if any. -/
def mapFind? : List (String × String) → String → Option String
  | [], _ => none
  | (k, v) :: rest, key => if k = key then some v else mapFind? rest key

/-- Insert (or overwrite) a binding in the association-list model of a
Go map[string]string write m[k] = v. -/
def mapInsert (m : List (String × String)) (k v : String) : List (String × String) :=
  (k, v) :: m

/-- Go strings.TrimSuffix(s, suffix): s without the provided trailing
suffix string; s is returned unchanged if it does not end in suffix.
Stated on the character lists underlying the strings so that it
evaluates inside the kernel. -/
def trimSuffix (s suffix : String) : String :=
  if suffix.data.isSuffixOf s.data then ⟨s.data.take (s.data.length - suffix.data.length)⟩
  else s

/-- Go strings.Join(elems, sep): the elements of elems joined by sep. -/
def stringsJoin (elems : List String) (sep : String) : String :=
  match elems with
  | [] => ""
  | [a] => a
  | a :: b :: rest => a ++ sep ++ stringsJoin (b :: rest) sep

/-- Configuration flags of the document (Go type Conf in text.go). -/
structure Conf where
  GenerateEmbeddedStylesheet : Bool
  StylesheetUnifyStyles : Bool
  ScopeStyleDefinitions : Bool
  Embedded : Bool
  deriving DecidableEq

/-- The anonymous styles struct embedded in Go type Document:
style-text-to-class map, class-to-style-text map, and conflict counter. -/
structure Styles where
  defMap : List (String × String)
  classMap : List (String × String)
  nConflict : Nat
  deriving DecidableEq

/-- Go type Styling: either a class reference or a literal style string
(both serialized as XML attributes, each omitted when empty). -/
structure Styling where
  Class : String
  Style : String
  deriving DecidableEq

/-- The part of Go type Document that MakeStyle reads and writes:
the accumulated stylesheet text (field Style), the document identifier
(field ID of the embedded Object), the styles tables, and the
configuration. -/
structure Document where
  Style : String
  ID : String
  styles : Styles
  conf : Conf
  deriving DecidableEq

/-- Go method Document.MakeStyle(name, style string) Styling from text.go,
returning the updated document together with the returned Styling.
The Go nil-map initialization of defMap/classMap has no observable
effect in the association-list model (an absent map and an empty map
look up identically), so it is not represented. -/
def MakeStyle (d : Document) (name style : String) : Document × Styling :=
  if !d.conf.GenerateEmbeddedStylesheet then
    if style ≠ "" then (d, ⟨"", style⟩)
    else (d, ⟨name, ""⟩)
  else
    match mapFind? d.styles.defMap style with
    | some cls => (d, ⟨cls, ""⟩)
    | none =>
      let conflict : Bool := (mapFind? d.styles.classMap name).isSome
      let n := if conflict then d.styles.nConflict + 1 else d.styles.nConflict
      let name1 := if conflict then name ++ toString n else name
      let defMap1 :=
        if d.conf.StylesheetUnifyStyles then mapInsert d.styles.defMap style name1
        else d.styles.defMap
      let classMap1 := mapInsert d.styles.classMap name1 style
      let sheet :=
        (if d.Style ≠ "" then d.Style ++ " " else d.Style)
          ++ (if d.conf.ScopeStyleDefinitions ∧ d.ID ≠ "" then "#" ++ d.ID ++ " " else "")
          ++ "." ++ name1 ++ " \x7b" ++ trimSuffix style ";" ++ "\x7d"
      ({ d with Style := sheet, styles := ⟨defMap1, classMap1, n⟩ }, ⟨name1, ""⟩)

/-- Runs a sequence of MakeStyle calls (name, style pairs) on a document,
returning the final document state. -/
def runMakeStyles (d : Document) : List (String × String) → Document
  | [] => d
  | c :: rest => runMakeStyles (MakeStyle d c.1 c.2).fst rest

/-- Observer for a single MakeStyle call: the conflict-counter value used
to disambiguate the requested class name in that call, if the call
disambiguates (mirrors the branch conditions of MakeStyle). -/
def disambigValue (d : Document) (name style : String) : Option Nat :=
  if !d.conf.GenerateEmbeddedStylesheet then none
  else
    match mapFind? d.styles.defMap style with
    | some _ => none
    | none =>
      if (mapFind? d.styles.classMap name).isSome then some (d.styles.nConflict + 1)
      else none

/-- The sequence of conflict-counter values used for disambiguation over
a sequence of MakeStyle calls, in call order. -/
def disambigTrace (d : Document) : List (String × String) → List Nat
  | [] => []
  | c :: rest =>
    match disambigValue d c.1 c.2 with
    | some v => v :: disambigTrace (MakeStyle d c.1 c.2).fst rest
    | none => disambigTrace (MakeStyle d c.1 c.2).fst rest

/-- A Styles state with empty tables and zero conflict counter. -/
def emptyStyles : Styles := ⟨[], [], 0⟩

/-- Concrete document with GenerateEmbeddedStylesheet unset. -/
def docNoEmbed : Document := ⟨"", "", emptyStyles, ⟨false, false, false, false⟩⟩

/-- Concrete document with only GenerateEmbeddedStylesheet set. -/
def docEmbed : Document := ⟨"", "", emptyStyles, ⟨true, false, false, false⟩⟩

/-- Concrete document with GenerateEmbeddedStylesheet and
StylesheetUnifyStyles set. -/
def docEmbedUnify : Document := ⟨"", "", emptyStyles, ⟨true, true, false, false⟩⟩

/-- Concrete document with GenerateEmbeddedStylesheet and
ScopeStyleDefinitions set but an empty ID. -/
def docEmbedScopedNoID : Document := ⟨"", "", emptyStyles, ⟨true, false, true, false⟩⟩

/-- Concrete document with GenerateEmbeddedStylesheet and
ScopeStyleDefinitions set, a non-empty ID and a non-empty prior
stylesheet. -/
def docScopedWithID : Document :=
  ⟨".a \x7bfill:red\x7d", "fig1", emptyStyles, ⟨true, false, true, false⟩⟩

/-- Result of a custom XML attribute marshaler (Go xml.Attr): attribute
name and textual value. The Go marshalers modelled here return a nil
error unconditionally, so no error channel is represented. -/
structure XmlAttr where
  name : String
  value : String
  deriving DecidableEq

/-- Go function makeListAttr(name xml.Name, values []string) from text.go:
an attribute whose value is the values joined by a single space. -/
def makeListAttr (name : String) (values : List String) : XmlAttr :=
  ⟨name, stringsJoin values " "⟩

/-- Go strconv.FormatFloat(f, 'g', -1, 64) restricted to float64 values
that are exactly representable small integers (the only values the claims
exercise, and the only values the integer-based constructors of this
library produce); on those the shortest round-trip form is the plain
decimal integer string, so float64 arguments are modelled as Int. -/
def formatFloatInt (i : Int) : String := toString i

/-- Go interface TransformArg (anything with a String method), modelled
by its rendering. -/
structure TransformArg where
  render : String
  deriving DecidableEq

/-- Go type intArg with its String method strconv.Itoa(int(i)). -/
def intArg (i : Int) : TransformArg := ⟨toString i⟩

/-- Go type floatArg with its String method strconv.FormatFloat;
modelled for integer-valued float64 arguments, see formatFloatInt. -/
def floatArg (i : Int) : TransformArg := ⟨formatFloatInt i⟩

/-- Go type Transform from transform source: an operation name with a
list of formattable arguments. -/
structure Transform where
  Name : String
  Args : List TransformArg
  deriving DecidableEq

/-- Go type TransformList, a slice of Transforms. -/
abbrev TransformList := List Transform

/-- Go method TransformList.append. -/
def TransformList.appendT (tl : TransformList) (t : Transform) : TransformList :=
  tl ++ [t]

/-- The functional-call rendering of one Transform built inside
TransformList.MarshalXMLAttr: name, then the arguments joined by a comma
with no space, in parentheses. -/
def Transform.render (t : Transform) : String :=
  t.Name ++ "(" ++ stringsJoin (t.Args.map TransformArg.render) "," ++ ")"

/-- Go method TransformList.MarshalXMLAttr: renders each transform to its
functional-call string in order and hands the list to makeListAttr. -/
def TransformList.marshalXMLAttr (tl : TransformList) (name : String) : XmlAttr :=
  makeListAttr name (tl.map Transform.render)

/-- Go function translateInt(x, y int). -/
def translateInt (x y : Int) : Transform :=
  ⟨"translate", [intArg x, intArg y]⟩

/-- Go method TransformList.TranslateInt. -/
def TransformList.TranslateInt (tl : TransformList) (x y : Int) : TransformList :=
  tl.appendT (translateInt x y)

/-- Go function ftrans(name string, f float64); see floatArg for the
modelling of the float64 argument. -/
def ftrans (name : String) (f : Int) : Transform :=
  ⟨name, [floatArg f]⟩

/-- Go method TransformList.RotateOrig(degrees float64). -/
def TransformList.RotateOrig (tl : TransformList) (degrees : Int) : TransformList :=
  tl.appendT (ftrans "rotate" degrees)

/-- Go method TransformList.SkewX(degrees float64). -/
def TransformList.SkewX (tl : TransformList) (degrees : Int) : TransformList :=
  tl.appendT (ftrans "skewX" degrees)

/-- Go method TransformList.SkewY(degrees float64). -/
def TransformList.SkewY (tl : TransformList) (degrees : Int) : TransformList :=
  tl.appendT (ftrans "skewY" degrees)

/-- Go type Points ([][2]float64); coordinates are produced by AddInt from
int arguments, so they are modelled as Int pairs, see formatFloatInt. -/
abbrev Points := List (Int × Int)

/-- Go method Points.AddInt(x, y int). -/
def Points.AddInt (pts : Points) (x y : Int) : Points :=
  pts ++ [(x, y)]

/-- Go method Points.MarshalXMLAttr: each pair joined internally by a
comma with no space, then the pair strings handed to makeListAttr. -/
def Points.marshalXMLAttr (pts : Points) (name : String) : XmlAttr :=
  makeListAttr name (pts.map fun pt => formatFloatInt pt.1 ++ "," ++ formatFloatInt pt.2)

/-- Go struct ellipse from shapes.go (fields cx, cy, rx, ry; its XMLName
tag is recorded by Ellipse.xmlTag). Coordinates come from the int
parameters of EllipseInt, so they are modelled as Int. -/
structure Ellipse where
  X : Int
  Y : Int
  Rx : Int
  Ry : Int
  deriving DecidableEq

/-- The XML tag recorded in the struct tag of the Go ellipse type:
the XMLName field carries the tag string "circle". -/
def Ellipse.xmlTag (_ : Ellipse) : String := "circle"

/-- The attribute names and values exposed by the Go ellipse struct tags:
cx, cy, rx and ry in declaration order. -/
def Ellipse.xmlAttrs (e : Ellipse) : List (String × String) :=
  [("cx", formatFloatInt e.X), ("cy", formatFloatInt e.Y),
   ("rx", formatFloatInt e.Rx), ("ry", formatFloatInt e.Ry)]

/-- Elements that the modelled ElemList fragment can hold. -/
inductive Elem where
  | ellipse (e : Ellipse)
  deriving DecidableEq

/-- Go type ElemList ([]interface\x7b\x7d), restricted to the element
kinds the claims are about. -/
abbrev ElemList := List Elem

/-- Go method ElemList.EllipseInt(cx, cy, rx, ry int): builds the ellipse
value, appends it to the list, and returns a handle to it. -/
def ElemList.EllipseInt (el : ElemList) (cx cy rx ry : Int) : ElemList × Ellipse :=
  let e : Ellipse := ⟨cx, cy, rx, ry⟩
  (el ++ [Elem.ellipse e], e)

end Svg

namespace Svg

/-- C1 counterexample: with GenerateEmbeddedStylesheet unset,
MakeStyle("foo", "fill:red;") returns the raw style text "fill:red;"
with the trailing declaration separator NOT trimmed, contradicting the
claim that the result carries the text with a trailing separator
trimmed. -/
theorem makeStyle_noEmbed_trimming_cex :
    (MakeStyle docNoEmbed "foo" "fill:red;").snd.Style = "fill:red;" ∧
    (MakeStyle docNoEmbed "foo" "fill:red;").snd.Style ≠ trimSuffix "fill:red;" ";" ∧
    (MakeStyle docNoEmbed "foo" "fill:red;").snd.Class = "" := by
  decide

/-- C1 (amended): with GenerateEmbeddedStylesheet unset and a non-empty
style argument, MakeStyle returns the raw style text unchanged (no
trailing-separator trimming), an empty Class, and leaves the document,
its style tables and accumulated stylesheet text unchanged. -/
theorem makeStyle_noEmbed_rawStyle (d : Document) (name style : String)
    (hE : d.conf.GenerateEmbeddedStylesheet = false) (hs : style ≠ "") :
    MakeStyle d name style = (d, ⟨"", style⟩) := by
  simp [MakeStyle, hE, hs]

/-- Witness for the amended C1 theorem at a concrete input. -/
theorem makeStyle_noEmbed_rawStyle_witness :
    MakeStyle docNoEmbed "foo" "fill:red;" = (docNoEmbed, ⟨"", "fill:red;"⟩) :=
  makeStyle_noEmbed_rawStyle docNoEmbed "foo" "fill:red;" rfl (by decide)

/-- C9: with GenerateEmbeddedStylesheet unset and an empty style
argument, MakeStyle returns a class-only Styling whose Class is the
requested name and whose Style is empty, leaving the document
unchanged. -/
theorem makeStyle_noEmbed_emptyStyle (d : Document) (name : String)
    (hE : d.conf.GenerateEmbeddedStylesheet = false) :
    MakeStyle d name "" = (d, ⟨name, ""⟩) := by
  simp [MakeStyle, hE]

/-- Witness for the C9 theorem at a concrete input. -/
theorem makeStyle_noEmbed_emptyStyle_witness :
    MakeStyle docNoEmbed "foo" "" = (docNoEmbed, ⟨"foo", ""⟩) :=
  makeStyle_noEmbed_emptyStyle docNoEmbed "foo" rfl

/-- C3: with GenerateEmbeddedStylesheet set, a style text not recorded in
the style table, and a requested name already present in the class
table, MakeStyle increments the conflict counter first and registers and
returns the name suffixed with the new counter value. -/
theorem makeStyle_conflict_suffix (d : Document) (name style : String)
    (hE : d.conf.GenerateEmbeddedStylesheet = true)
    (hNew : mapFind? d.styles.defMap style = none)
    (hConf : (mapFind? d.styles.classMap name).isSome = true) :
    (MakeStyle d name style).fst.styles.nConflict = d.styles.nConflict + 1 ∧
    (MakeStyle d name style).snd.Class = name ++ toString (d.styles.nConflict + 1) ∧
    mapFind? (MakeStyle d name style).fst.styles.classMap
      (name ++ toString (d.styles.nConflict + 1)) = some style := by
  simp [MakeStyle, hE, hNew, hConf, mapInsert, mapFind?]

/-- Witness for the C3 theorem: after MakeStyle("a", "fill:red;"), the
call MakeStyle("a", "fill:blue;") yields class "a1", distinct from the
first class "a". -/
theorem makeStyle_conflict_suffix_witness :
    (MakeStyle docEmbed "a" "fill:red;").snd.Class = "a" ∧
    (MakeStyle (MakeStyle docEmbed "a" "fill:red;").fst "a" "fill:blue;").snd.Class
      = "a" ++ toString ((MakeStyle docEmbed "a" "fill:red;").fst.styles.nConflict + 1) ∧
    (MakeStyle (MakeStyle docEmbed "a" "fill:red;").fst "a" "fill:blue;").snd.Class = "a1" ∧
    (MakeStyle (MakeStyle docEmbed "a" "fill:red;").fst "a" "fill:blue;").snd.Class ≠ "a" :=
  ⟨by decide,
   (makeStyle_conflict_suffix (MakeStyle docEmbed "a" "fill:red;").fst "a" "fill:blue;"
     (by decide) (by decide) (by decide)).2.1,
   by decide, by decide⟩

/-- C4: with GenerateEmbeddedStylesheet and StylesheetUnifyStyles both
set, a second MakeStyle call with the same style text returns the class
assigned by the first call and changes nothing in the document: the
stylesheet text, both style tables and the conflict counter are exactly
those left by the first call. -/
theorem makeStyle_unify_dedup (d : Document) (n1 n2 s : String)
    (hE : d.conf.GenerateEmbeddedStylesheet = true)
    (hU : d.conf.StylesheetUnifyStyles = true) :
    MakeStyle (MakeStyle d n1 s).fst n2 s =
      ((MakeStyle d n1 s).fst, ⟨(MakeStyle d n1 s).snd.Class, ""⟩) := by
  cases h : mapFind? d.styles.defMap s with
  | some c => simp [MakeStyle, hE, h]
  | none => simp [MakeStyle, hE, hU, h, mapInsert, mapFind?]

/-- Witness for the C4 theorem: calling MakeStyle("a", "fill:red;") twice
returns class "a" both times and the stylesheet holds exactly the one
rule of the first call. -/
theorem makeStyle_unify_dedup_witness :
    MakeStyle (MakeStyle docEmbedUnify "a" "fill:red;").fst "a" "fill:red;" =
      ((MakeStyle docEmbedUnify "a" "fill:red;").fst,
        ⟨(MakeStyle docEmbedUnify "a" "fill:red;").snd.Class, ""⟩) ∧
    (MakeStyle docEmbedUnify "a" "fill:red;").snd.Class = "a" ∧
    (MakeStyle docEmbedUnify "a" "fill:red;").fst.Style = ".a \x7bfill:red\x7d" :=
  ⟨makeStyle_unify_dedup docEmbedUnify "a" "a" "fill:red;" rfl rfl, by decide, by decide⟩

/-- C5: whenever MakeStyle registers a new rule (embedded stylesheet
generation on, style text not yet in the style table), and the document
identifier is non-empty when ScopeStyleDefinitions is set, the stylesheet
text grows by exactly: a space separator if it was non-empty, the scope
prefix made of a hash, the document ID and a space if ScopeStyleDefinitions
is set, then a dot, the assigned class name, and the style body in braces
with a trailing separator trimmed. -/
theorem makeStyle_appendsRule (d : Document) (name style : String)
    (hE : d.conf.GenerateEmbeddedStylesheet = true)
    (hNew : mapFind? d.styles.defMap style = none)
    (hScope : d.conf.ScopeStyleDefinitions = true → d.ID ≠ "") :
    (MakeStyle d name style).fst.Style =
      d.Style ++ (if d.Style = "" then "" else " ")
        ++ (if d.conf.ScopeStyleDefinitions then "#" ++ d.ID ++ " " else "")
        ++ "." ++ (MakeStyle d name style).snd.Class
        ++ " \x7b" ++ trimSuffix style ";" ++ "\x7d" := by
  by_cases hSc : d.conf.ScopeStyleDefinitions = true
  · have hID := hScope hSc
    by_cases hSty : d.Style = "" <;>
      simp [MakeStyle, hE, hNew, hSc, hID, hSty, String.append_assoc]
  · rw [Bool.not_eq_true] at hSc
    by_cases hSty : d.Style = "" <;>
      simp [MakeStyle, hE, hNew, hSc, hSty, String.append_assoc]

/-- Witness for the C5 theorem at a concrete input with a scoped,
identified document and a non-empty prior stylesheet. -/
theorem makeStyle_appendsRule_witness :
    (MakeStyle docScopedWithID "b" "stroke:black;").fst.Style =
      docScopedWithID.Style ++ (if docScopedWithID.Style = "" then "" else " ")
        ++ (if docScopedWithID.conf.ScopeStyleDefinitions then
              "#" ++ docScopedWithID.ID ++ " " else "")
        ++ "." ++ (MakeStyle docScopedWithID "b" "stroke:black;").snd.Class
        ++ " \x7b" ++ trimSuffix "stroke:black;" ";" ++ "\x7d" :=
  makeStyle_appendsRule docScopedWithID "b" "stroke:black;" rfl rfl (fun _ => by decide)

/-- C10: MakeStyle is total and signals no error; when
ScopeStyleDefinitions is set but the document ID is empty, the scope
prefix is silently omitted and the rule is still appended unscoped, and
a class-only Styling is returned. -/
theorem makeStyle_scopedNoID_unscoped (d : Document) (name style : String)
    (hE : d.conf.GenerateEmbeddedStylesheet = true)
    (_hS : d.conf.ScopeStyleDefinitions = true)
    (hID : d.ID = "")
    (hNew : mapFind? d.styles.defMap style = none) :
    (MakeStyle d name style).fst.Style =
      d.Style ++ (if d.Style = "" then "" else " ")
        ++ "." ++ (MakeStyle d name style).snd.Class
        ++ " \x7b" ++ trimSuffix style ";" ++ "\x7d" ∧
    (MakeStyle d name style).snd.Style = "" := by
  constructor
  · by_cases hSty : d.Style = "" <;>
      simp [MakeStyle, hE, hNew, hID, hSty, String.append_assoc]
  · simp [MakeStyle, hE, hNew]

/-- Witness for the C10 theorem at a concrete scoped document with an
empty ID. -/
theorem makeStyle_scopedNoID_unscoped_witness :
    (MakeStyle docEmbedScopedNoID "a" "fill:red;").fst.Style =
      docEmbedScopedNoID.Style ++ (if docEmbedScopedNoID.Style = "" then "" else " ")
        ++ "." ++ (MakeStyle docEmbedScopedNoID "a" "fill:red;").snd.Class
        ++ " \x7b" ++ trimSuffix "fill:red;" ";" ++ "\x7d" ∧
    (MakeStyle docEmbedScopedNoID "a" "fill:red;").snd.Style = "" :=
  makeStyle_scopedNoID_unscoped docEmbedScopedNoID "a" "fill:red;" rfl rfl rfl rfl

/-- One MakeStyle call leaves the conflict counter unchanged unless it
disambiguates, in which case the counter becomes the disambiguation
value. -/
theorem makeStyle_nConflict_eq (d : Document) (name style : String) :
    (MakeStyle d name style).fst.styles.nConflict =
      match disambigValue d name style with
      | some v => v
      | none => d.styles.nConflict := by
  cases hb : d.conf.GenerateEmbeddedStylesheet with
  | false => by_cases hst : style = "" <;> simp [MakeStyle, disambigValue, hb, hst]
  | true =>
    cases h : mapFind? d.styles.defMap style with
    | some c => simp [MakeStyle, disambigValue, hb, h]
    | none =>
      by_cases hc : (mapFind? d.styles.classMap name).isSome = true
      · simp [MakeStyle, disambigValue, hb, h, hc]
      · rw [Bool.not_eq_true] at hc
        simp [MakeStyle, disambigValue, hb, h, hc]

/-- A disambiguation value is always the incremented conflict counter of
the state of its call. -/
theorem disambigValue_eq_succ (d : Document) (name style : String) (v : Nat)
    (h : disambigValue d name style = some v) : v = d.styles.nConflict + 1 := by
  unfold disambigValue at h
  split at h
  · exact absurd h (by simp)
  · split at h
    · exact absurd h (by simp)
    · split at h
      · exact (Option.some_inj.mp h).symm
      · exact absurd h (by simp)

/-- One MakeStyle call never decreases the conflict counter. -/
theorem makeStyle_nConflict_le (d : Document) (name style : String) :
    d.styles.nConflict ≤ (MakeStyle d name style).fst.styles.nConflict := by
  cases h : disambigValue d name style with
  | none =>
    rw [makeStyle_nConflict_eq, h]
  | some v =>
    rw [makeStyle_nConflict_eq, h]
    show d.styles.nConflict ≤ v
    have := disambigValue_eq_succ d name style v h
    omega

/-- The conflict counter never decreases over a sequence of MakeStyle
calls. -/
theorem runMakeStyles_nConflict_le (calls : List (String × String)) :
    ∀ d : Document, d.styles.nConflict ≤ (runMakeStyles d calls).styles.nConflict := by
  induction calls with
  | nil => intro d; simp [runMakeStyles]
  | cons c rest ih =>
    intro d
    rw [runMakeStyles]
    exact Nat.le_trans (makeStyle_nConflict_le d c.1 c.2) (ih _)

/-- Every disambiguation value produced along a sequence of MakeStyle
calls is strictly larger than the conflict counter at the start of the
sequence. -/
theorem disambigTrace_lt (calls : List (String × String)) :
    ∀ (d : Document) (v : Nat), v ∈ disambigTrace d calls → d.styles.nConflict < v := by
  induction calls with
  | nil => intro d v hv; simp [disambigTrace] at hv
  | cons c rest ih =>
    intro d v hv
    cases h : disambigValue d c.1 c.2 with
    | some w =>
      simp only [disambigTrace, h] at hv
      have hw : w = d.styles.nConflict + 1 := disambigValue_eq_succ d c.1 c.2 w h
      have hd1 : (MakeStyle d c.1 c.2).fst.styles.nConflict = w := by
        rw [makeStyle_nConflict_eq, h]
      cases List.mem_cons.mp hv with
      | inl hvw => omega
      | inr hmem =>
        have := ih _ v hmem
        omega
    | none =>
      simp only [disambigTrace, h] at hv
      have hd1 : (MakeStyle d c.1 c.2).fst.styles.nConflict = d.styles.nConflict := by
        rw [makeStyle_nConflict_eq, h]
      have := ih _ v hv
      omega

/-- The disambiguation values of a sequence of MakeStyle calls are
strictly increasing in call order. -/
theorem disambigTrace_pairwise (calls : List (String × String)) :
    ∀ d : Document, List.Pairwise (· < ·) (disambigTrace d calls) := by
  induction calls with
  | nil => intro d; simp [disambigTrace]
  | cons c rest ih =>
    intro d
    cases h : disambigValue d c.1 c.2 with
    | none =>
      simp only [disambigTrace, h]
      exact ih _
    | some w =>
      simp only [disambigTrace, h]
      refine List.Pairwise.cons ?_ (ih _)
      intro v hv
      have hd1 : (MakeStyle d c.1 c.2).fst.styles.nConflict = w := by
        rw [makeStyle_nConflict_eq, h]
      have := disambigTrace_lt rest _ v hv
      omega

/-- C2 (amended): over any sequence of MakeStyle calls on a document,
the conflict counter never decreases, and the counter values used for
disambiguation are strictly increasing in call order, so no counter
value serves two disambiguations. (The further part of the claim that
assigned class names are pairwise distinct fails: a disambiguated name
can collide with a pre-existing class-table entry, see the
counterexample.) -/
theorem makeStyle_counter_monotone_fresh (d : Document) (calls : List (String × String)) :
    d.styles.nConflict ≤ (runMakeStyles d calls).styles.nConflict ∧
    List.Pairwise (· < ·) (disambigTrace d calls) :=
  ⟨runMakeStyles_nConflict_le calls d, disambigTrace_pairwise calls d⟩

/-- C2 counterexample: with GenerateEmbeddedStylesheet set, the calls
MakeStyle("a1","s1"), MakeStyle("a","s2"), MakeStyle("a","s3") each
register a new rule, yet the first and third calls are assigned the same
class name "a1", and the third registration overwrites the class-table
entry of the first ("a1" maps to "s3" afterwards), contradicting the
claimed pairwise distinctness of assigned class names. -/
theorem makeStyle_classCollision_cex :
    (MakeStyle docEmbed "a1" "s1").snd.Class = "a1" ∧
    (MakeStyle (MakeStyle docEmbed "a1" "s1").fst "a" "s2").snd.Class = "a" ∧
    (MakeStyle (MakeStyle (MakeStyle docEmbed "a1" "s1").fst "a" "s2").fst "a" "s3").snd.Class
      = "a1" ∧
    mapFind? (MakeStyle (MakeStyle (MakeStyle docEmbed "a1" "s1").fst "a" "s2").fst
      "a" "s3").fst.styles.classMap "a1" = some "s3" := by
  decide

/-- C6: the serialized transform attribute renders the empty chain to the
empty string, renders a non-empty chain head-first as its functional-call
string followed, when more operations follow, by a single space and the
serialization of the rest (so append order is preserved), and renders the
chain translate(1,2) then rotate(30) to "translate(1,2) rotate(30)". -/
theorem transformList_marshal_order :
    (∀ name : String, (TransformList.marshalXMLAttr [] name).value = "") ∧
    (∀ (name : String) (t : Transform) (rest : TransformList),
      (TransformList.marshalXMLAttr (t :: rest) name).value =
        Transform.render t ++
          (if rest.isEmpty then "" else " " ++ (TransformList.marshalXMLAttr rest name).value)) ∧
    (TransformList.marshalXMLAttr (TransformList.RotateOrig
      (TransformList.TranslateInt [] 1 2) 30) "transform").value
      = "translate(1,2) rotate(30)" := by
  refine ⟨fun name => rfl, fun name t rest => ?_, by decide⟩
  cases rest with
  | nil => simp [TransformList.marshalXMLAttr, makeListAttr, stringsJoin]
  | cons r rs =>
    simp [TransformList.marshalXMLAttr, makeListAttr, stringsJoin, String.append_assoc]

/-- C7: the list attribute encoder joins pre-formatted values with a
single space and no leading or trailing space (empty list to empty
string, head followed, when more values follow, by one space and the
joined rest), and the coordinate-pair list [(10,20),(30,40)], each pair
joined internally by a comma, serializes to "10,20 30,40". -/
theorem makeListAttr_join :
    (∀ name : String, (makeListAttr name []).value = "") ∧
    (∀ (name v : String) (vs : List String),
      (makeListAttr name (v :: vs)).value =
        v ++ (if vs.isEmpty then "" else " " ++ (makeListAttr name vs).value)) ∧
    (Points.marshalXMLAttr [(10, 20), (30, 40)] "points").value = "10,20 30,40" := by
  refine ⟨fun name => rfl, fun name v vs => ?_, by decide⟩
  cases vs with
  | nil => simp [makeListAttr, stringsJoin]
  | cons w ws => simp [makeListAttr, stringsJoin, String.append_assoc]

/-- C8: the element appended by EllipseInt carries the XML tag "circle",
not "ellipse", while exposing the attributes cx, cy, rx and ry with the
given coordinates. -/
theorem ellipseInt_circleTag (el : ElemList) (cx cy rx ry : Int) :
    (ElemList.EllipseInt el cx cy rx ry).fst
        = el ++ [Elem.ellipse (ElemList.EllipseInt el cx cy rx ry).snd] ∧
    ((ElemList.EllipseInt el cx cy rx ry).snd).xmlTag = "circle" ∧
    ((ElemList.EllipseInt el cx cy rx ry).snd).xmlTag ≠ "ellipse" ∧
    ((ElemList.EllipseInt el cx cy rx ry).snd).xmlAttrs =
      [("cx", formatFloatInt cx), ("cy", formatFloatInt cy),
       ("rx", formatFloatInt rx), ("ry", formatFloatInt ry)] :=
  ⟨rfl, rfl, (by decide : ("circle" : String) ≠ "ellipse"), rfl⟩

end Svg
